import Mathlib

/-!
Verification development for the Maji Ndogo data-science repository
(`field_data_processor.py`, `weather_data_processor.py`).

Strings from the Python side are modelled as lists of Unicode code points
(`Str := List Nat`); numeric cell values are modelled as exact fractions
(`Frac := Int × Nat`, numerator and positive denominator, interpreted in
`Rat` through `toRat`).  All values appearing in the pipeline's correction
and extraction steps — decimal literals, absolute values, arithmetic means
of decimal data — are exact rationals, so this is a faithful model of the
64-bit floats the code manipulates.  Character classification (`isdigit`,
whitespace) is modelled over the ASCII range, which covers every value the
pipeline's configured patterns and correction maps produce.
-/

/-- Code-point strings: the model of Python `str` values. -/
def Str : Type := List Nat

instance : DecidableEq Str := by unfold Str; infer_instance
instance : Append Str := by unfold Str; infer_instance
instance : Membership Nat Str := by unfold Str; infer_instance

/-- Encode a Lean string literal as a code-point string. -/
def enc (s : String) : Str := s.data.map Char.toNat

/-- Unnormalised fractions: the model of numeric cell values.  The
denominator is kept positive by every operation below. -/
def Frac : Type := Int × Nat

instance : DecidableEq Frac := by unfold Frac; infer_instance

/-- Semantic value of a fraction. -/
def toRat (p : Frac) : Rat := (p.1 : Rat) / (p.2 : Rat)

/-- Fraction from an integer. -/
def fofInt (n : Int) : Frac := (n, 1)

/-- Fraction addition (cross-multiplication, no normalisation). -/
def fadd (a b : Frac) : Frac := (a.1 * (b.2 : Int) + b.1 * (a.2 : Int), a.2 * b.2)

/-- Fraction negation. -/
def fneg (a : Frac) : Frac := (-a.1, a.2)

/-- Fraction absolute value (the model of pandas `Series.abs`). -/
def fabs (a : Frac) : Frac := (|a.1|, a.2)

/-- Divide a fraction by a natural number (used for group means). -/
def fdivNat (a : Frac) (n : Nat) : Frac := (a.1, a.2 * n)

/-- Scale a fraction by `10 ^ k` (used for float exponents). -/
def fmulPow10 (a : Frac) (k : Nat) : Frac := (a.1 * (10 : Int) ^ k, a.2)

/-- Divide a fraction by `10 ^ k` (used for negative float exponents). -/
def fdivPow10 (a : Frac) (k : Nat) : Frac := (a.1, a.2 * 10 ^ k)

/-- Semantic (value-level) equality test on fractions. -/
def fbeq (a b : Frac) : Bool := a.1 * (b.2 : Int) = b.1 * (a.2 : Int)

/-- Whitespace code points stripped by Python `str.strip()` (ASCII range). -/
def isSp (c : Nat) : Bool := c = 32 || c = 9 || c = 10 || c = 11 || c = 12 || c = 13

/-- ASCII decimal digit test, the model of Python `str.isdigit()` per character. -/
def isDig (c : Nat) : Bool := 48 ≤ c && c ≤ 57

/-- Per-character lower-casing, the model of Python `str.lower()` (ASCII range). -/
def lowerCp (c : Nat) : Nat := if 65 ≤ c && c ≤ 90 then c + 32 else c

/-- Model of Python `str.lower()`. -/
def strLower (s : Str) : Str := List.map lowerCp s

/-- Drop leading whitespace. -/
def trimLeft (s : Str) : Str := List.dropWhile isSp s

/-- Drop trailing whitespace. -/
def trimRight (s : Str) : Str := (List.dropWhile isSp (List.reverse s)).reverse

/-- Model of Python `str.strip()`: drop whitespace at both ends. -/
def pyStrip (s : Str) : Str := trimRight (trimLeft s)

/-- The normalisation applied to crop-type tokens by `apply_corrections`:
`.str.strip().str.lower()`. -/
def normTok (s : Str) : Str := strLower (pyStrip s)

/-- Value of a digit string read in base 10. -/
def digitsVal (ds : Str) : Nat := List.foldl (fun a c => a * 10 + (c - 48)) 0 ds

/-- Exponent suffix of a float literal (`e±ddd`), applied to a parsed mantissa. -/
def expPart (base : Option Frac) (r : Str) : Option Frac :=
  match base with
  | none => none
  | some q =>
    let p : Bool × Str :=
      match r with
      | 45 :: t => (true, t)
      | 43 :: t => (false, t)
      | t => (false, t)
    let ed := List.takeWhile isDig p.2
    if (List.dropWhile isDig p.2 ≠ ([] : List Nat)) ∨ ed = ([] : List Nat) then none
    else some (if p.1 then fdivPow10 q (digitsVal ed) else fmulPow10 q (digitsVal ed))

/-- Model of Python `float(s)` on strings (and of the string parser behind
`pd.to_numeric`): optional surrounding whitespace, optional sign, integer
and/or fractional digits, optional exponent.  `none` models a raised
`ValueError` (for `float`) resp. a failed coercion (for `to_numeric`). -/
def pyFloat (s : Str) : Option Frac :=
  let s1 := pyStrip s
  let p : Bool × Str :=
    match s1 with
    | 45 :: r => (true, r)
    | 43 :: r => (false, r)
    | r => (false, r)
  let ip := List.takeWhile isDig p.2
  let r1 := List.dropWhile isDig p.2
  let core : Option Frac :=
    match r1 with
    | [] => if ip = ([] : List Nat) then none else some (fofInt (digitsVal ip))
    | 46 :: r2 =>
      let fp := List.takeWhile isDig r2
      let r3 := List.dropWhile isDig r2
      let base : Option Frac :=
        if ip = ([] : List Nat) ∧ fp = ([] : List Nat) then none
        else some ((digitsVal ip * 10 ^ fp.length + digitsVal fp : Int), 10 ^ fp.length)
      match r3 with
      | [] => base
      | 101 :: r4 => expPart base r4
      | 69 :: r4 => expPart base r4
      | _ => none
    | 101 :: r4 => if ip = ([] : List Nat) then none else expPart (some (fofInt (digitsVal ip))) r4
    | 69 :: r4 => if ip = ([] : List Nat) then none else expPart (some (fofInt (digitsVal ip))) r4
    | _ => none
  core.map (fun q => if p.1 then fneg q else q)

/-- A table cell: a number, a text value, or null (NaN/None). -/
inductive Val where
  | num (q : Frac)
  | str (s : Str)
  | null
deriving DecidableEq

/-- Semantic view of a cell value, with fractions read in `Rat`. -/
inductive SVal where
  | num (r : Rat)
  | str (s : Str)
  | null

/-- Semantic value of a cell. -/
def sval : Val → SVal
  | .num q => .num (toRat q)
  | .str s => .str s
  | .null => .null

/-- Value-level equality of cells (pandas `==` semantics on cell values):
numbers compare by value, not representation. -/
def vbeq : Val → Val → Bool
  | .num a, .num b => fbeq a b
  | .str a, .str b => a = b
  | .null, .null => true
  | _, _ => false

/-- A table: ordered named columns of cell values (the pandas DataFrame model). -/
def Table : Type := List (String × List Val)

instance : DecidableEq Table := by unfold Table; infer_instance
instance : Append Table := by unfold Table; infer_instance
instance : Membership (String × List Val) Table := by unfold Table; infer_instance

/-- The column labels of a table, in order. -/
def colNames (t : Table) : List String := List.map Prod.fst t

/-- The values of the first column with the given label (pandas `df[name]`). -/
def getCol (t : Table) (n : String) : Option (List Val) :=
  (List.find? (fun c => c.1 = n) t).map Prod.snd

example : pyFloat (enc "150.0") = some ((1500 : Int), 10) := by decide
example : (pyFloat (enc " 12.5 ")).map toRat = some (25 / 2) := by
  have h : pyFloat (enc " 12.5 ") = some ((125 : Int), 10) := by decide
  rw [h]; norm_num [toRat]
example : pyFloat (enc "-7") = some ((-7 : Int), 1) := by decide
example : pyFloat (enc "1-2") = none := by decide
example : pyFloat (enc "1.2.3") = none := by decide
example : (pyFloat (enc "2e3")).map toRat = some 2000 := by
  have h : pyFloat (enc "2e3") = some ((2000 : Int), 1) := by decide
  rw [h]; norm_num [toRat]
example : normTok (enc " Cassaval ") = enc "cassaval" := by decide

/-!
## Field corrector (`field_data_processor.py`)
-/

/-- pandas `df.rename(columns = dict two entries)` (`rename_columns` lines
139): every column labelled by a dict key is relabelled; absent keys are
silently ignored; when the two keys coincide the later entry wins (Python
dict literal semantics). -/
def rename2 (k1 v1 k2 v2 : String) (t : Table) : Table :=
  List.map (fun c => (if c.1 = k2 then v2 else if c.1 = k1 then v1 else c.1, c.2)) t

/-- pandas `df.rename(columns = dict one entry)` (`rename_columns` line 140). -/
def rename1 (k1 v1 : String) (t : Table) : Table :=
  List.map (fun c => (if c.1 = k1 then v1 else c.1, c.2)) t

/-- The `while temp_name in self.df.columns: temp_name += "_"` loop of
`rename_columns`, with explicit fuel.  With fuel `cols.length + 1` the
source loop is guaranteed to have exited (the candidates are pairwise
distinct, so at most `cols.length` of them can collide), which
`freshTemp_not_mem` below proves. -/
def freshTempGo : Nat → String → List String → String
  | 0, s, _ => s
  | k + 1, s, cols => if s ∈ cols then freshTempGo k (s ++ "_") cols else s

/-- The non-colliding intermediate buffer name chosen by `rename_columns`. -/
def freshTemp (cols : List String) : String :=
  freshTempGo (cols.length + 1) "__temp_name_for_swap__" cols

/-- The column swap of `rename_columns` (lines 127–140): relabel
`column1 ↦ temp`, `column2 ↦ column1`, then `temp ↦ column2`. -/
def swapColumns (A B : String) (t : Table) : Table :=
  let temp := freshTemp (colNames t)
  rename1 temp B (rename2 A temp B A t)

/-- `pd.to_numeric(·, errors='coerce')` on one cell: numbers pass through,
parseable text becomes a number, unparseable text becomes null (NaN). -/
def coerceNum : Val → Val
  | .num q => .num q
  | .str s =>
    match pyFloat s with
    | some q => .num q
    | none => .null
  | .null => .null

/-- `df[n] = f(df[n])`: rewrite the cells of every column labelled `n`. -/
def mapCol (n : String) (f : Val → Val) (t : Table) : Table :=
  List.map (fun c => if c.1 = n then (c.1, List.map f c.2) else c) t

/-- `FieldDataProcessor.rename_columns`: swap the configured pair of column
labels via the fresh temporary name, then coerce the `Annual_yield` column
to numeric.  `.error` models the `KeyError` raised by the
`self.df['Annual_yield']` access when that column is absent after the swap
(the pandas renames themselves never raise on absent labels). -/
def rename_columns (A B : String) (t : Table) : Except String Table :=
  let t1 := swapColumns A B t
  if "Annual_yield" ∈ colNames t1 then
    .ok (mapCol "Annual_yield" coerceNum t1)
  else
    .error "KeyError: Annual_yield"

/-- `Series.abs` on one cell (elevation repair).  Null stays null
(`abs(NaN) = NaN`); text elevations are outside the model's scope (pandas
would raise there) and are left untouched. -/
def absVal : Val → Val
  | .num q => .num (fabs q)
  | v => v

/-- The crop-type repair of `apply_corrections` (lines 162–168) on one
cell: `.str.strip().str.lower()` (non-text cells become null), then
`values_to_rename.get(crop, crop)`. -/
def corrStep (vmap : List (Str × Str)) : Val → Val
  | .str s =>
    match List.lookup (normTok s) vmap with
    | some v => .str v
    | none => .str (normTok s)
  | _ => .null

/-- `FieldDataProcessor.apply_corrections` with the default column
arguments: absolute value on `Elevation`, then vocabulary repair on
`Crop_type`. -/
def apply_corrections (vmap : List (Str × Str)) (t : Table) : Table :=
  mapCol "Crop_type" (corrStep vmap) (mapCol "Elevation" absVal t)

/-- The correction stage of `FieldDataProcessor.process`: `rename_columns`
followed by `apply_corrections`. -/
def fieldCorrect (A B : String) (vmap : List (Str × Str)) (t : Table) : Except String Table :=
  (rename_columns A B t).map (apply_corrections vmap)

instance {ε α : Type} [DecidableEq ε] [DecidableEq α] : DecidableEq (Except ε α)
  | .ok a, .ok b => decidable_of_iff (a = b) (by simp)
  | .error a, .error b => decidable_of_iff (a = b) (by simp)
  | .ok _, .error _ => isFalse (by simp)
  | .error _, .ok _ => isFalse (by simp)

/-- The survey row of end-to-end scenario A. -/
def scenarioATable : Table :=
  [("Field_ID", [.str (enc "F1")]),
   ("Crop_type", [.str (enc "150.0")]),
   ("Annual_yield", [.str (enc " Cassaval ")]),
   ("Elevation", [.num ((-123 : Int), 10)])]

example :
    fieldCorrect "Annual_yield" "Crop_type" [(enc "cassaval", enc "cassava")] scenarioATable =
      .ok
        [("Field_ID", [.str (enc "F1")]),
         ("Annual_yield", [.num ((1500 : Int), 10)]),
         ("Crop_type", [.str (enc "cassava")]),
         ("Elevation", [.num ((123 : Int), 10)])] := by decide

/-!
## Message extractor (`weather_data_processor.py`)

A small backtracking regular-expression engine modelling the Python `re`
module on the pattern constructs the processor's configuration surface
uses: literals, character classes, concatenation, alternation (preferring
the left branch), greedy `*`/`+`/`?`, and numbered capturing groups
(numbered in order of opening parenthesis, last iteration wins).  The
matcher carries fuel to bound `star` unrolling; `reFuel` is generous
enough that the fuel never runs out on patterns whose starred bodies
consume input, which is the case for every pattern in the configuration.
-/

/-- Regular expressions over code points. -/
inductive RE where
  | eps
  | lit (ranges : List (Nat × Nat))
  | seq (a b : RE)
  | alt (a b : RE)
  | star (r : RE)
  | group (n : Nat) (r : RE)
deriving DecidableEq

/-- A literal character. -/
def reChar (c : Nat) : RE := .lit [(c, c)]

/-- The class `\d` (ASCII digits, as matched by the configured patterns). -/
def reDigit : RE := .lit [(48, 57)]

/-- The class `\s` (ASCII whitespace). -/
def reSpace : RE := .lit [(9, 13), (32, 32)]

/-- Greedy `r+`. -/
def rePlus (r : RE) : RE := .seq r (.star r)

/-- Greedy `r?`. -/
def reOpt (r : RE) : RE := .alt r .eps

/-- A literal string. -/
def reStr (s : Str) : RE := List.foldr (fun c acc => RE.seq (reChar c) acc) RE.eps s

/-- Capture state: group number paired with captured text, latest first. -/
def Caps : Type := List (Nat × Str)

instance : DecidableEq Caps := by unfold Caps; infer_instance

/-- Structural size of a pattern, used to compute the fuel bound. -/
def reSize : RE → Nat
  | .eps => 1
  | .lit _ => 1
  | .seq a b => reSize a + reSize b + 1
  | .alt a b => reSize a + reSize b + 1
  | .star r => reSize r + 1
  | .group _ r => reSize r + 1

/-- Largest group number occurring in a pattern. -/
def maxGroup : RE → Nat
  | .eps => 0
  | .lit _ => 0
  | .seq a b => max (maxGroup a) (maxGroup b)
  | .alt a b => max (maxGroup a) (maxGroup b)
  | .star r => maxGroup r
  | .group n r => max n (maxGroup r)

/-- The backtracking matcher: match `re` against a prefix of `s`, passing
the remaining input and capture state to the continuation `k`; the first
success in Python's backtracking priority order wins.  Greedy repetition
prefers one more iteration; alternation prefers the left branch. -/
def mrun : Nat → RE → List Nat → Caps → (List Nat → Caps → Option Caps) → Option Caps
  | 0, _, _, _, _ => none
  | fuel + 1, re, s, caps, k =>
    match re with
    | .eps => k s caps
    | .lit rs =>
      match s with
      | [] => none
      | c :: rest => if rs.any (fun p => p.1 ≤ c && c ≤ p.2) then k rest caps else none
    | .seq a b => mrun fuel a s caps (fun s' caps' => mrun fuel b s' caps' k)
    | .alt a b =>
      match mrun fuel a s caps k with
      | some res => some res
      | none => mrun fuel b s caps k
    | .star r =>
      match mrun fuel r s caps (fun s' caps' => mrun fuel (.star r) s' caps' k) with
      | some res => some res
      | none => k s caps
    | .group n r =>
      mrun fuel r s caps
        (fun s' caps' => k s' ((n, List.take (s.length - s'.length) s) :: caps'))

/-- Try to match at the head of each successive suffix: `re.search`'s
leftmost-match rule. -/
def reSearch (fuel : Nat) (r : RE) : List Nat → Option Caps
  | [] => mrun fuel r [] [] (fun _ caps => some caps)
  | c :: t =>
    match mrun fuel r (c :: t) [] (fun _ caps => some caps) with
    | some caps => some caps
    | none => reSearch fuel r t

/-- Fuel bound for a search over `s`. -/
def reFuel (r : RE) (s : Str) : Nat := (List.length s + 2) * (reSize r + 2)

/-- `re.search(pattern, message)`: `some` capture state on a match, `none`
when the pattern does not match anywhere. -/
def pySearch (r : RE) (s : Str) : Option Caps := reSearch (reFuel r s) r s

/-- `match.groups()`: captured text of groups `1 .. maxGroup`, in group
order, `none` for groups that did not participate in the match. -/
def groupsOf (r : RE) (caps : Caps) : List (Option Str) :=
  (List.range (maxGroup r)).map (fun i => List.lookup (i + 1) caps)

/-- The numeric filter of `extract_measurement` (line 135):
`group.replace('.', '').replace('-', '').isdigit()`. -/
def digitCheckTok (g : Str) : Bool :=
  let s := List.filter (fun c => !(c == 46 || c == 45)) g
  !List.isEmpty s && List.all s isDig

/-- The group loop of `extract_measurement` (lines 134–136): skip falsy
(`None`/empty) groups and groups failing the digit filter; on the first
group passing the filter return `float(group)` — `.error` models the
`ValueError` that `float` raises when that text is not a float literal. -/
def extractLoop : List (Option Str) → Except Unit (Option Frac)
  | [] => .ok none
  | none :: rest => extractLoop rest
  | some g :: rest =>
    if !List.isEmpty g && digitCheckTok g then
      match pyFloat g with
      | some q => .ok (some q)
      | none => .error ()
    else extractLoop rest

/-- `WeatherDataProcessor.extract_measurement` for one compiled pattern:
search, then scan `match.groups()` left to right. -/
def extractCore (r : RE) (msg : Str) : Except Unit (Option Frac) :=
  match pySearch r msg with
  | none => .ok none
  | some caps => extractLoop (groupsOf r caps)

/-- `WeatherDataProcessor.extract_measurement` including the
`measurement_type not in self.regex_patterns` guard (line 126). -/
def extract_measurement (pats : List (String × RE)) (msg : Str) (mt : String) :
    Except Unit (Option Frac) :=
  match List.lookup mt pats with
  | none => .ok none
  | some r => extractCore r msg

/-- One cell of a new measurement column: apply `extract_measurement` to
the message of that row.  A non-text message makes `re.search` raise
(`.error`); a `None` extraction result is stored as null (NaN). -/
def extractCell (r : RE) : Val → Except Unit Val
  | .str s =>
    (extractCore r s).map (fun o =>
      match o with
      | some q => .num q
      | none => .null)
  | _ => .error ()

/-- `df[n] = col`: replace the column labelled `n`, or append it on the
right when absent (pandas column assignment). -/
def setCol (t : Table) (n : String) (col : List Val) : Table :=
  if n ∈ colNames t then
    List.map (fun c => if c.1 = n then (c.1, col) else c) t
  else
    List.append t [(n, col)]

/-- `WeatherDataProcessor.process_messages`: for every configured
measurement type, in configuration order, add one column obtained by
applying `extract_measurement` to the `Message` column.  `.error` models
the `KeyError` on a missing `Message` column or a raised extraction error. -/
def process_messages (pats : List (String × RE)) (t : Table) : Except Unit Table :=
  match getCol t "Message" with
  | none => .error ()
  | some msgs =>
    List.foldlM
      (fun acc p => do
        let col ← List.mapM (extractCell p.2) msgs
        pure (setCol acc p.1 col))
      t pats

/-- The configured Rainfall pattern `(\d+(\.\d+)?)\s?mm`. -/
def rainfallRE : RE :=
  .seq (.group 1 (.seq (rePlus reDigit) (reOpt (.group 2 (.seq (reChar 46) (rePlus reDigit))))))
    (.seq (reOpt reSpace) (reStr (enc "mm")))

/-- The configured Temperature pattern `(\d+(\.\d+)?)\s?C`. -/
def temperatureRE : RE :=
  .seq (.group 1 (.seq (rePlus reDigit) (reOpt (.group 2 (.seq (reChar 46) (rePlus reDigit))))))
    (.seq (reOpt reSpace) (reChar 67))

/-- The Rainfall pattern exactly as the spec's scenario B writes it,
without the outer capturing group: `\d+(\.\d+)?\s?mm`. -/
def rainfallLiteralRE : RE :=
  .seq (.seq (rePlus reDigit) (reOpt (.group 1 (.seq (reChar 46) (rePlus reDigit)))))
    (.seq (reOpt reSpace) (reStr (enc "mm")))

/-- The Temperature pattern exactly as the spec's scenario B writes it:
`\d+(\.\d+)?\s?C`. -/
def temperatureLiteralRE : RE :=
  .seq (.seq (rePlus reDigit) (reOpt (.group 1 (.seq (reChar 46) (rePlus reDigit)))))
    (.seq (reOpt reSpace) (reChar 67))

example : extractCore rainfallRE (enc "Rainfall: 9mm, Temperature: 22C") = .ok (some ((9 : Int), 1)) := by decide
example : extractCore temperatureRE (enc "Rainfall: 9mm, Temperature: 22C") = .ok (some ((22 : Int), 1)) := by decide
example : extractCore rainfallLiteralRE (enc "Rainfall: 9mm, Temperature: 22C") = .ok none := by decide
example : extractCore rainfallRE (enc "Rainfall: 12.5mm") = .ok (some ((125 : Int), 10)) := by decide
example : extractCore rainfallRE (enc "no rain today") = .ok none := by decide
example :
    extractCore (.group 1 (.seq (rePlus reDigit) (.seq (reChar 45) (rePlus reDigit)))) (enc "1-2") =
      .error () := by decide

/-!
## Aggregator and weather pipeline (`weather_data_processor.py`)
-/

/-- The accepted spellings for the station-identifier column, in the
priority order of `calculate_means` (line 175). -/
def possibleStationNames : List String :=
  ["Weather_station", "Station", "weather_station", "Weather_Station", "Station_ID"]

/-- Station-column discovery (lines 174–188): first accepted spelling
present in the table, else the table's first column. -/
def stationColumn (t : Table) : Option String :=
  match List.find? (fun n => n ∈ colNames t) possibleStationNames with
  | some n => some n
  | none => List.head? (colNames t)

/-- `notna` on one cell. -/
def isNotNull : Val → Bool
  | .null => false
  | _ => true

/-- Measurement-column selection (lines 190–196): keep the configured
pattern names that are present as columns and have at least one non-null
value (`self.weather_df[m].notna().any()`). -/
def measurementColumns (pats : List String) (t : Table) : List String :=
  pats.filter (fun m =>
    match getCol t m with
    | some col => col.any isNotNull
    | none => false)

/-- One step of the running sum and count of numeric cell values
(`mean` ignores nulls: only `.num` cells contribute). -/
def scStep (acc : Frac × Nat) (v : Val) : Frac × Nat :=
  match v with
  | .num q => (fadd acc.1 q, acc.2 + 1)
  | _ => acc

/-- Running sum and count of the numeric values of a list of cells. -/
def sumCount (vs : List Val) : Frac × Nat := vs.foldl scStep (fofInt 0, 0)

/-- The measurement cells of the rows whose station value equals `k`. -/
def groupVals (svals mvals : List Val) (k : Val) : List Val :=
  (List.zip svals mvals).filterMap (fun p => if vbeq p.1 k then some p.2 else none)

/-- One aggregate cell: the mean of the non-null measurement values of the
group keyed by `k`; null when the group has no non-null value. -/
def cellMean (svals mvals : List Val) (k : Val) : Val :=
  let sc := sumCount (groupVals svals mvals k)
  if sc.2 = 0 then .null else .num (fdivNat sc.1 sc.2)

/-- First-occurrence deduplication by cell value (`seen` accumulates the
keys already emitted). -/
def uniqGo (seen : List Val) : List Val → List Val
  | [] => []
  | v :: r => if seen.any (fun w => vbeq w v) then uniqGo seen r else v :: uniqGo (v :: seen) r

/-- The group keys of `groupby(station_column)`: distinct non-null station
values (pandas drops null keys; the display order of groups is not part of
the model). -/
def groupKeys (svals : List Val) : List Val := uniqGo [] (svals.filter isNotNull)

/-- `WeatherDataProcessor.calculate_means` (lines 158–214): discover the
station column, select the measurement columns, and group-mean them.
`none` models every "no result" exit of the source (no qualifying
measurement column, no columns at all, falsy station label, or a caught
exception): the method never raises — its body is wrapped in
`try/except Exception` — and on `none` the `weather_df_mean` attribute is
simply not written. -/
def calculate_means (pats : List String) (t : Table) : Option Table :=
  let mcols := measurementColumns pats t
  if mcols = [] then none
  else
    match stationColumn t with
    | none => none
    | some sc =>
      if sc = "" then none
      else
        match getCol t sc with
        | none => none
        | some svals =>
          let keys := groupKeys svals
          some
            (List.cons (sc, keys)
              (List.map
                (fun m => (m, keys.map (fun k => cellMean svals ((getCol t m).getD []) k)))
                mcols))

/-- `WeatherDataProcessor.process`, with the external CSV fetch stubbed as
an `Except` outcome and the aggregation call abstracted as `agg` (the
source wraps `self.calculate_means()` in `try/except` and continues on
failure, so an `.error` aggregation outcome is swallowed).  The result
pairs the returned table with the `weather_df_mean` attribute. -/
def weatherProcess (fetch : Except Unit Table) (pats : List (String × RE))
    (agg : Table → Except Unit (Option Table)) : Except Unit (Table × Option Table) :=
  match fetch with
  | .error _ => .error ()
  | .ok t =>
    match process_messages pats t with
    | .error _ => .error ()
    | .ok t' =>
      .ok (t',
        match agg t' with
        | .ok m => m
        | .error _ => none)

/-- `WeatherDataProcessor.process` with the actual aggregation step:
`calculate_means` over the configured pattern names (total — it catches
its own exceptions). -/
def weatherProcessRun (fetch : Except Unit Table) (pats : List (String × RE)) :
    Except Unit (Table × Option Table) :=
  weatherProcess fetch pats (fun t => .ok (calculate_means (pats.map Prod.fst) t))

/-- A three-row weather table for the aggregation examples. -/
def meansExampleTable : Table :=
  [("Weather_station", [.str (enc "A"), .str (enc "A"), .str (enc "A")]),
   ("Rainfall", [.num ((10 : Int), 1), .null, .num ((20 : Int), 1)]),
   ("Pollution_level", [.null, .null, .null])]

example :
    calculate_means ["Rainfall", "Pollution_level"] meansExampleTable =
      some
        [("Weather_station", [.str (enc "A")]),
         ("Rainfall", [.num ((30 : Int), 2)])] := by decide

example : toRat ((30 : Int), 2) = 15 := by norm_num [toRat]

/-!
## Freshness of the temporary swap name
-/

/-- Number of column names at least `n` long. -/
def countGe (n : Nat) (l : List String) : Nat :=
  (l.filter (fun c => decide (n ≤ c.length))).length

theorem countGe_lt_of_mem {l : List String} {s : String} (hs : s ∈ l) :
    countGe (s.length + 1) l < countGe s.length l := by
  induction l with
  | nil => simp at hs
  | cons a t ih =>
    unfold countGe at *
    rcases List.mem_cons.mp hs with rfl | hmem
    · have h1 : ¬ (s.length + 1 ≤ s.length) := by omega
      have hmono :
          (t.filter (fun c => decide (s.length + 1 ≤ c.length))).length ≤
            (t.filter (fun c => decide (s.length ≤ c.length))).length :=
        (List.monotone_filter_right t (fun c hc => by
          simp only [decide_eq_true_eq] at *; omega)).length_le
      simp only [List.filter_cons, decide_eq_true_eq]
      rw [if_neg h1, if_pos (by omega)]
      simpa using Nat.lt_succ_of_le hmono
    · by_cases ha : s.length + 1 ≤ a.length
      · simp only [List.filter_cons, decide_eq_true_eq]
        rw [if_pos ha, if_pos (by omega)]
        simpa using ih hmem
      · by_cases ha2 : s.length ≤ a.length
        · simp only [List.filter_cons, decide_eq_true_eq]
          rw [if_neg ha, if_pos ha2]
          simpa using Nat.lt_succ_of_lt (ih hmem)
        · simp only [List.filter_cons, decide_eq_true_eq]
          rw [if_neg ha, if_neg ha2]
          exact ih hmem

theorem freshTempGo_not_mem :
    ∀ (k : Nat) (s : String) (cols : List String),
      countGe s.length cols < k → freshTempGo k s cols ∉ cols := by
  intro k
  induction k with
  | zero => intro s cols h; omega
  | succ k ih =>
    intro s cols h
    unfold freshTempGo
    by_cases hmem : s ∈ cols
    · rw [if_pos hmem]
      apply ih
      have hlt := countGe_lt_of_mem hmem
      have h1 : "_".length = 1 := rfl
      have hlen : (s ++ "_").length = s.length + 1 := by
        rw [String.length_append, h1]
      rw [hlen]; omega
    · rw [if_neg hmem]; exact hmem

/-- The temporary buffer name chosen by `rename_columns` is never an
existing column label. -/
theorem freshTemp_not_mem (cols : List String) : freshTemp cols ∉ cols := by
  apply freshTempGo_not_mem
  have := List.length_filter_le (fun c : String => decide ("__temp_name_for_swap__".length ≤ c.length)) cols
  unfold countGe
  omega

/-!
## The column swap
-/

/-- The label-level effect of the swap: `A` and `B` exchange, all other
labels stay. -/
def swapName (A B n : String) : String := if n = B then A else if n = A then B else n

theorem swapName_invol (A B n : String) : swapName A B (swapName A B n) = n := by
  unfold swapName
  split_ifs <;> simp_all

theorem swapName_eq_iff (A B n m : String) : swapName A B n = m ↔ n = swapName A B m := by
  constructor
  · intro h; rw [← h, swapName_invol]
  · intro h; rw [h, swapName_invol]

theorem mem_colNames_of_mem {t : Table} {c : String × List Val} (hc : c ∈ t) :
    c.1 ∈ colNames t := List.mem_map_of_mem Prod.fst hc

/-- When both labels of the rename pair are present, the swap is exactly
the relabelling `swapName` applied to every column: the temporary name
never collides, so the three pandas renames compose to the pairwise swap. -/
theorem swapColumns_eq {A B : String} {t : Table} (hA : A ∈ colNames t) :
    swapColumns A B t = List.map (fun c => (swapName A B c.1, c.2)) t := by
  unfold swapColumns rename1 rename2
  rw [List.map_map]
  apply List.map_congr_left
  intro c hc
  have hc1 : c.1 ∈ colNames t := mem_colNames_of_mem hc
  have htemp : freshTemp (colNames t) ∉ colNames t := freshTemp_not_mem _
  have hcA : A ≠ freshTemp (colNames t) := fun h => htemp (h ▸ hA)
  have hctemp : c.1 ≠ freshTemp (colNames t) := fun h => htemp (h ▸ hc1)
  simp only [Function.comp_apply]
  unfold swapName
  by_cases hB' : c.1 = B
  · rw [if_pos hB', if_neg hcA, if_pos hB']
  · rw [if_neg hB', if_neg hB']
    by_cases hA' : c.1 = A
    · rw [if_pos hA', if_pos rfl, if_pos hA']
    · rw [if_neg hA', if_neg hctemp, if_neg hA']

theorem colNames_swapColumns {A B : String} {t : Table} (hA : A ∈ colNames t) :
    colNames (swapColumns A B t) = List.map (swapName A B) (colNames t) := by
  rw [swapColumns_eq hA]
  unfold colNames
  rw [List.map_map, List.map_map]
  rfl

theorem getCol_swapColumns {A B : String} {t : Table} (hA : A ∈ colNames t) (m : String) :
    getCol (swapColumns A B t) m = getCol t (swapName A B m) := by
  rw [swapColumns_eq hA]
  unfold getCol
  rw [List.find?_map]
  rw [Option.map_map]
  have hpred :
      ((fun c : String × List Val => decide (c.1 = m)) ∘
          fun c : String × List Val => (swapName A B c.1, c.2)) =
        fun c : String × List Val => decide (c.1 = swapName A B m) := by
    funext c
    simp [swapName_eq_iff]
  rw [hpred]
  rfl

theorem swapName_right (A B : String) : swapName A B B = A := by
  unfold swapName; rw [if_pos rfl]

theorem swapName_left (A B : String) : swapName A B A = B := by
  unfold swapName
  by_cases h : A = B
  · simp [h]
  · rw [if_neg h, if_pos rfl]

/-- Claim C4: for every table containing both columns of the rename pair
`{A, B}`, the column swap moves every value under `A` to `B` and vice
versa with no data loss, the intermediate buffer name is not already a
column of the table, and applying the swap twice returns the original
table (involution). -/
theorem swap_columns_involution {A B : String} {t : Table}
    (hA : A ∈ colNames t) (hB : B ∈ colNames t) :
    freshTemp (colNames t) ∉ colNames t ∧
    getCol (swapColumns A B t) B = getCol t A ∧
    getCol (swapColumns A B t) A = getCol t B ∧
    List.map Prod.snd (swapColumns A B t) = List.map Prod.snd t ∧
    swapColumns A B (swapColumns A B t) = t := by
  refine ⟨freshTemp_not_mem _, ?_, ?_, ?_, ?_⟩
  · rw [getCol_swapColumns hA B, swapName_right]
  · rw [getCol_swapColumns hA A, swapName_left]
  · rw [swapColumns_eq hA, List.map_map]
    rfl
  · have hA2 : A ∈ colNames (swapColumns A B t) := by
      rw [colNames_swapColumns hA]
      exact List.mem_map.mpr ⟨B, hB, swapName_right A B⟩
    rw [swapColumns_eq hA2, swapColumns_eq hA, List.map_map]
    have hcomp :
        ((fun c : String × List Val => (swapName A B c.1, c.2)) ∘
            fun c : String × List Val => (swapName A B c.1, c.2)) = id := by
      funext c
      simp [Function.comp, swapName_invol]
    rw [hcomp, List.map_id]

/-- Witness for C4 at the scenario-A table and the configured rename pair. -/
theorem swap_columns_involution_witness :
    freshTemp (colNames scenarioATable) ∉ colNames scenarioATable ∧
    getCol (swapColumns "Annual_yield" "Crop_type" scenarioATable) "Crop_type" =
      getCol scenarioATable "Annual_yield" ∧
    getCol (swapColumns "Annual_yield" "Crop_type" scenarioATable) "Annual_yield" =
      getCol scenarioATable "Crop_type" ∧
    List.map Prod.snd (swapColumns "Annual_yield" "Crop_type" scenarioATable) =
      List.map Prod.snd scenarioATable ∧
    swapColumns "Annual_yield" "Crop_type" (swapColumns "Annual_yield" "Crop_type" scenarioATable) =
      scenarioATable :=
  swap_columns_involution (by decide) (by decide)

/-- Counterexample to claim C8: a table from which both names of the
configured rename pair (`Foo`, `Bar`) are absent, but whose yield column
is present.  The rename step succeeds — pandas `rename` silently ignores
absent labels — instead of failing with a `KeyError` as the claim states. -/
theorem rename_columns_missing_pair_counterexample :
    rename_columns "Foo" "Bar" [("Annual_yield", [Val.num ((1 : Int), 1)])] =
      .ok [("Annual_yield", [Val.num ((1 : Int), 1)])] := by decide

/-- Claim C8 as amended: the column-rename step fails with a
`KeyError`-class error exactly when the `Annual_yield` column is absent
from the table after the swap relabelling (in particular a missing rename
pair alone does not raise: the pandas renames ignore absent labels, and
the `KeyError` comes from the `self.df['Annual_yield']` access). -/
theorem rename_columns_keyerror_characterization (A B : String) (t : Table) :
    (∃ e, rename_columns A B t = .error e) ↔
      "Annual_yield" ∉ colNames (swapColumns A B t) := by
  unfold rename_columns
  by_cases h : "Annual_yield" ∈ colNames (swapColumns A B t) <;> simp [h]

/-- The first row's value in a named column. -/
def firstVal (t : Table) (n : String) : Option Val := (getCol t n).bind List.head?

/-- Claim C1 (end-to-end scenario A): the survey row
`(Field_ID "F1", Crop_type "150.0", Annual_yield " Cassaval ", Elevation -12.3)`,
corrected with rename pair `(Annual_yield, Crop_type)` and correction map
`cassaval ↦ cassava`, ends with `Crop_type = "cassava"`,
`Annual_yield = 150.0` and `Elevation = 12.3`. -/
theorem fieldCorrect_scenarioA :
    ∃ out,
      fieldCorrect "Annual_yield" "Crop_type" [(enc "cassaval", enc "cassava")] scenarioATable =
          .ok out ∧
        (firstVal out "Crop_type").map sval = some (.str (enc "cassava")) ∧
        (firstVal out "Annual_yield").map sval = some (.num 150) ∧
        (firstVal out "Elevation").map sval = some (.num (123 / 10)) := by
  refine
    ⟨[("Field_ID", [.str (enc "F1")]),
      ("Annual_yield", [.num ((1500 : Int), 10)]),
      ("Crop_type", [.str (enc "cassava")]),
      ("Elevation", [.num ((123 : Int), 10)])],
      by decide, ?_, ?_, ?_⟩
  · have h :
        firstVal
            [("Field_ID", [Val.str (enc "F1")]),
             ("Annual_yield", [Val.num ((1500 : Int), 10)]),
             ("Crop_type", [Val.str (enc "cassava")]),
             ("Elevation", [Val.num ((123 : Int), 10)])] "Crop_type" =
          some (Val.str (enc "cassava")) := by decide
    rw [h]
    simp [sval]
  · have h :
        firstVal
            [("Field_ID", [Val.str (enc "F1")]),
             ("Annual_yield", [Val.num ((1500 : Int), 10)]),
             ("Crop_type", [Val.str (enc "cassava")]),
             ("Elevation", [Val.num ((123 : Int), 10)])] "Annual_yield" =
          some (Val.num ((1500 : Int), 10)) := by decide
    rw [h]
    norm_num [sval, toRat]
  · have h :
        firstVal
            [("Field_ID", [Val.str (enc "F1")]),
             ("Annual_yield", [Val.num ((1500 : Int), 10)]),
             ("Crop_type", [Val.str (enc "cassava")]),
             ("Elevation", [Val.num ((123 : Int), 10)])] "Elevation" =
          some (Val.num ((123 : Int), 10)) := by decide
    rw [h]
    norm_num [sval, toRat]

/-!
## Idempotence of token normalisation and vocabulary repair (C9)
-/

theorem isSp_false_of_ge {c : Nat} (h : 33 ≤ c) : isSp c = false := by
  simp only [isSp, Bool.or_eq_false_iff, decide_eq_false_iff_not]
  omega

theorem lowerCp_idem (c : Nat) : lowerCp (lowerCp c) = lowerCp c := by
  simp only [lowerCp, Bool.and_eq_true, decide_eq_true_eq]
  split_ifs <;> omega

theorem isSp_lowerCp (c : Nat) : isSp (lowerCp c) = isSp c := by
  unfold lowerCp
  split_ifs with h
  · simp only [Bool.and_eq_true, decide_eq_true_eq] at h
    rw [isSp_false_of_ge (by omega), isSp_false_of_ge (by omega)]
  · rfl

theorem strLower_idem (s : Str) : strLower (strLower s) = strLower s := by
  unfold strLower
  rw [List.map_map]
  apply List.map_congr_left
  intro a _
  exact lowerCp_idem a

theorem dropWhile_isSp_idem (l : List Nat) :
    List.dropWhile isSp (List.dropWhile isSp l) = List.dropWhile isSp l := by
  induction l with
  | nil => rfl
  | cons a t ih =>
    by_cases h : isSp a
    · rw [List.dropWhile_cons_of_pos h]
      exact ih
    · rw [List.dropWhile_cons_of_neg h, List.dropWhile_cons_of_neg h]

theorem trimLeft_eq_self_of_isPrefixOf {x a : Str} (hx : x <+: a) (h : trimLeft a = a) :
    trimLeft x = x := by
  unfold trimLeft at *
  cases x with
  | nil => rfl
  | cons c t =>
    obtain ⟨rest, hrest⟩ := hx
    have hc : isSp c = false := by
      by_contra hc
      have hc' : isSp c := by
        cases hcc : isSp c with
        | true => rfl
        | false => exact absurd hcc hc
      have h' : List.dropWhile isSp (c :: (t ++ rest)) = c :: (t ++ rest) := by
        rw [← List.cons_append, hrest]
        exact h
      rw [List.dropWhile_cons_of_pos hc'] at h'
      have hlen := (List.dropWhile_sublist (l := t ++ rest) isSp).length_le
      have := congrArg List.length h'
      rw [List.length_cons] at this
      omega
    rw [List.dropWhile_cons_of_neg (by simp [hc])]

theorem trimRight_prefix_self (a : Str) : trimRight a <+: a := by
  unfold trimRight
  have h := List.dropWhile_suffix (l := a.reverse) isSp
  have := List.reverse_prefix.mpr h
  simpa using this

theorem trimLeft_trimRight {a : Str} (h : trimLeft a = a) :
    trimLeft (trimRight a) = trimRight a :=
  trimLeft_eq_self_of_isPrefixOf (trimRight_prefix_self a) h

theorem trimRight_idem (a : Str) : trimRight (trimRight a) = trimRight a := by
  unfold trimRight
  rw [List.reverse_reverse, dropWhile_isSp_idem]

theorem pyStrip_idem (s : Str) : pyStrip (pyStrip s) = pyStrip s := by
  unfold pyStrip
  have ha : trimLeft (trimLeft s) = trimLeft s := dropWhile_isSp_idem s
  rw [trimLeft_trimRight ha, trimRight_idem]

theorem trimLeft_strLower (s : Str) : trimLeft (strLower s) = strLower (trimLeft s) := by
  unfold trimLeft strLower
  rw [List.dropWhile_map]
  rw [show (isSp ∘ lowerCp) = isSp from funext isSp_lowerCp]

theorem trimRight_strLower (s : Str) : trimRight (strLower s) = strLower (trimRight s) := by
  unfold trimRight strLower
  rw [← List.map_reverse, List.dropWhile_map, ← List.map_reverse]
  rw [show (isSp ∘ lowerCp) = isSp from funext isSp_lowerCp]

theorem pyStrip_strLower (s : Str) : pyStrip (strLower s) = strLower (pyStrip s) := by
  unfold pyStrip
  rw [trimLeft_strLower, trimRight_strLower]

theorem normTok_idem (s : Str) : normTok (normTok s) = normTok s := by
  unfold normTok
  rw [pyStrip_strLower, pyStrip_idem, strLower_idem]

theorem mem_of_lookup_eq_some {vmap : List (Str × Str)} {k v : Str}
    (h : List.lookup k vmap = some v) : (k, v) ∈ vmap := by
  rw [List.lookup_eq_some_iff] at h
  obtain ⟨l₁, l₂, rfl, -⟩ := h
  exact List.mem_append_right _ (List.mem_cons_self _ _)

theorem corrStep_idem (vmap : List (Str × Str))
    (hfix : ∀ p ∈ vmap, corrStep vmap (.str p.2) = .str p.2) (v : Val) :
    corrStep vmap (corrStep vmap v) = corrStep vmap v := by
  cases v with
  | null => rfl
  | num q => rfl
  | str s =>
    cases hl : List.lookup (normTok s) vmap with
    | none =>
      simp only [corrStep, hl]
      rw [normTok_idem, hl]
    | some v' =>
      simp only [corrStep, hl]
      have := hfix _ (mem_of_lookup_eq_some hl)
      simpa [corrStep] using this

/-- Claim C9: token normalisation (trim then lowercase) is idempotent, and
— the correction targets being fixed points of the correction step, as the
claim's parenthetical assumes — applying the vocabulary-repair step twice
to a crop-type column yields the same column as applying it once. -/
theorem normalization_idempotent (vmap : List (Str × Str))
    (hfix : ∀ p ∈ vmap, corrStep vmap (.str p.2) = .str p.2) :
    (∀ s : Str, normTok (normTok s) = normTok s) ∧
      ∀ col : List Val,
        List.map (corrStep vmap) (List.map (corrStep vmap) col) =
          List.map (corrStep vmap) col := by
  refine ⟨normTok_idem, ?_⟩
  intro col
  rw [List.map_map]
  apply List.map_congr_left
  intro v _
  exact corrStep_idem vmap hfix v

/-- Witness for C9 at the configured correction map and the scenario-A
crop column. -/
theorem normalization_idempotent_witness :
    normTok (normTok (enc " Cassaval ")) = normTok (enc " Cassaval ") ∧
      List.map (corrStep [(enc "cassaval", enc "cassava")])
          (List.map (corrStep [(enc "cassaval", enc "cassava")])
            [Val.str (enc " Cassaval "), Val.str (enc "TEA"), Val.null]) =
        List.map (corrStep [(enc "cassaval", enc "cassava")])
          [Val.str (enc " Cassaval "), Val.str (enc "TEA"), Val.null] :=
  ⟨(normalization_idempotent [(enc "cassaval", enc "cassava")] (by decide)).1 (enc " Cassaval "),
    (normalization_idempotent [(enc "cassaval", enc "cassava")] (by decide)).2
      [Val.str (enc " Cassaval "), Val.str (enc "TEA"), Val.null]⟩

/-!
## Extraction: the group-selection loop (C2, C5, C6)
-/

/-- The loop condition of `extract_measurement`: a truthy (non-empty)
group whose dot/minus-stripped text is a non-empty digit string. -/
def passTok (g : Str) : Bool := !List.isEmpty g && digitCheckTok g

theorem extractLoop_eq (gs : List (Option Str)) :
    extractLoop gs =
      match (gs.filterMap id).find? passTok with
      | none => Except.ok none
      | some g =>
        match pyFloat g with
        | some q => Except.ok (some q)
        | none => Except.error () := by
  induction gs with
  | nil => rfl
  | cons g rest ih =>
    cases g with
    | none => simpa [extractLoop, List.filterMap_cons] using ih
    | some s =>
      simp only [extractLoop, List.filterMap_cons, id]
      by_cases hp : (!List.isEmpty s && digitCheckTok s) = true
      · have hp' : passTok s = true := hp
        rw [if_pos hp]
        simp [List.find?_cons, hp']
      · have hp' : passTok s = false := by
          simpa [passTok] using hp
        rw [if_neg hp]
        simp only [List.find?_cons, hp']
        exact ih

/-- The groups `extract_measurement` scans: empty when the search fails. -/
def searchGroups (r : RE) (msg : Str) : List (Option Str) :=
  match pySearch r msg with
  | none => []
  | some caps => groupsOf r caps

/-- Counterexample to claim C2 at the pattern `(\d+-\d+)|(\d+)` and the
message `1-2`: the first capturing group captures `1-2`, which passes the
dot/minus-strip digit check but is not a number, so `float` raises — the
code neither returns the first *numeric* group (the spec's rule, which
would skip `1-2`) nor returns null. -/
theorem extract_measurement_claim_counterexample :
    extractCore
        (.alt (.group 1 (.seq (rePlus reDigit) (.seq (reChar 45) (rePlus reDigit))))
          (.group 2 (rePlus reDigit)))
        (enc "1-2") = .error () := by decide

/-- Claim C2 as amended: extraction applies the pattern to the message;
with no match it returns null; on a match it scans the capturing groups in
left-to-right order for the first non-empty group whose text with all `.`
and `-` characters removed is a non-empty digit string (not: "whose text
parses as a number"), and passes that text to `float`, which yields its
numeric value for well-formed tokens and raises `ValueError` otherwise;
null when no group passes the check. -/
theorem extract_measurement_characterization (r : RE) (msg : Str) :
    extractCore r msg =
      match pySearch r msg with
      | none => Except.ok none
      | some caps =>
        match ((groupsOf r caps).filterMap id).find? passTok with
        | none => Except.ok none
        | some g =>
          match pyFloat g with
          | some q => Except.ok (some q)
          | none => Except.error () := by
  unfold extractCore
  cases pySearch r msg with
  | none => rfl
  | some caps => exact extractLoop_eq _

/-- Counterexample to claim C5 at the pattern `(\d+-\d+)` and message
`1-2`: the captured group passes the numeric check but `float("1-2")`
raises `ValueError`, so extraction is not non-raising. -/
theorem extract_raises_counterexample :
    extractCore (.group 1 (.seq (rePlus reDigit) (.seq (reChar 45) (rePlus reDigit))))
        (enc "1-2") = .error () := by decide

/-- Claim C5 as amended: numeric coercion turns every unparseable value
into null rather than an error; extraction resolves a non-matching
message to null; and extraction never raises *provided* every group that
passes the digit check is a well-formed float literal — the unqualified
claim fails because the check admits tokens such as `1-2` on which the
`float` conversion raises. -/
theorem value_ops_never_raise (r : RE) (msg : Str)
    (hwf : ∀ g ∈ (searchGroups r msg).filterMap id, passTok g → (pyFloat g).isSome) :
    (∀ s : Str, pyFloat s = none → coerceNum (.str s) = .null) ∧
      (pySearch r msg = none → extractCore r msg = .ok none) ∧
      ∃ res, extractCore r msg = .ok res := by
  refine ⟨?_, ?_, ?_⟩
  · intro s h
    simp [coerceNum, h]
  · intro h
    unfold extractCore
    rw [h]
  · unfold extractCore
    cases hs : pySearch r msg with
    | none => exact ⟨none, rfl⟩
    | some caps =>
      change ∃ res, extractLoop (groupsOf r caps) = Except.ok res
      rw [extractLoop_eq]
      unfold searchGroups at hwf
      rw [hs] at hwf
      cases hf : ((groupsOf r caps).filterMap id).find? passTok with
      | none => exact ⟨none, rfl⟩
      | some g =>
        have hmem := List.mem_of_find?_eq_some hf
        have hpass := List.find?_some hf
        have hsome := hwf g hmem hpass
        obtain ⟨q, hq⟩ := Option.isSome_iff_exists.mp hsome
        change ∃ res,
          (match pyFloat g with
            | some q => Except.ok (some q)
            | none => Except.error ()) = Except.ok res
        rw [hq]
        exact ⟨some q, rfl⟩

/-- Witness for C5 at the configured Rainfall pattern and the message
`Rainfall: 12.5mm`. -/
theorem value_ops_never_raise_witness :
    (∀ s : Str, pyFloat s = none → coerceNum (.str s) = .null) ∧
      (pySearch rainfallRE (enc "Rainfall: 12.5mm") = none →
        extractCore rainfallRE (enc "Rainfall: 12.5mm") = .ok none) ∧
      ∃ res, extractCore rainfallRE (enc "Rainfall: 12.5mm") = .ok res :=
  value_ops_never_raise rainfallRE (enc "Rainfall: 12.5mm") (by decide)

/-- Counterexample to claim C6: with the Rainfall pattern written exactly
as the claim writes it — `\d+(\.\d+)?\s?mm`, no outer capturing group —
the row's Rainfall measurement is null, not 9.0: the only capturing group
is the unmatched fractional part. -/
theorem scenarioB_literal_counterexample :
    extract_measurement
        [("Rainfall", rainfallLiteralRE), ("Temperature", temperatureLiteralRE)]
        (enc "Rainfall: 9mm, Temperature: 22C") "Rainfall" = .ok none := by decide

/-- Claim C6 as amended (end-to-end scenario B): with the patterns as
configured in the source — `(\d+(\.\d+)?)\s?mm` and `(\d+(\.\d+)?)\s?C`,
outer capturing groups included — the message
`Rainfall: 9mm, Temperature: 22C` yields `Rainfall = 9.0` and
`Temperature = 22.0`. -/
theorem scenarioB_corrected :
    ∃ out,
      process_messages [("Rainfall", rainfallRE), ("Temperature", temperatureRE)]
          [("Message", [.str (enc "Rainfall: 9mm, Temperature: 22C")])] = .ok out ∧
        (firstVal out "Rainfall").map sval = some (.num 9) ∧
        (firstVal out "Temperature").map sval = some (.num 22) := by
  refine
    ⟨[("Message", [.str (enc "Rainfall: 9mm, Temperature: 22C")]),
      ("Rainfall", [.num ((9 : Int), 1)]),
      ("Temperature", [.num ((22 : Int), 1)])],
      by decide, ?_, ?_⟩
  · have h :
        firstVal
            [("Message", [Val.str (enc "Rainfall: 9mm, Temperature: 22C")]),
             ("Rainfall", [Val.num ((9 : Int), 1)]),
             ("Temperature", [Val.num ((22 : Int), 1)])] "Rainfall" =
          some (Val.num ((9 : Int), 1)) := by decide
    rw [h]
    norm_num [sval, toRat]
  · have h :
        firstVal
            [("Message", [Val.str (enc "Rainfall: 9mm, Temperature: 22C")]),
             ("Rainfall", [Val.num ((9 : Int), 1)]),
             ("Temperature", [Val.num ((22 : Int), 1)])] "Temperature" =
          some (Val.num ((22 : Int), 1)) := by decide
    rw [h]
    norm_num [sval, toRat]

/-!
## Weather pipeline control flow (C7, C10)
-/

/-- Claim C7: in the weather pipeline, a CSV-ingestion failure or a
message-extraction failure is fatal and propagates, while the pipeline
continues and returns the extracted (un-aggregated) table whatever the
aggregation step does — including when the aggregation call raises. -/
theorem weather_process_error_policy (pats : List (String × RE))
    (agg : Table → Except Unit (Option Table)) :
    (weatherProcess (.error ()) pats agg = .error ()) ∧
      (∀ t, process_messages pats t = .error () →
        weatherProcess (.ok t) pats agg = .error ()) ∧
      (∀ t t', process_messages pats t = .ok t' →
        ∃ m, weatherProcess (.ok t) pats agg = .ok (t', m)) ∧
      (∀ t t', process_messages pats t = .ok t' →
        weatherProcess (.ok t) pats (fun _ => .error ()) = .ok (t', none)) := by
  refine ⟨rfl, ?_, ?_, ?_⟩
  · intro t h
    simp [weatherProcess, h]
  · intro t t' h
    simp only [weatherProcess, h]
    exact ⟨_, rfl⟩
  · intro t t' h
    simp [weatherProcess, h]

/-- The scenario-B weather table used as pipeline witness input. -/
def scenarioBTable : Table := [("Message", [.str (enc "Rainfall: 9mm, Temperature: 22C")])]

/-- The scenario-B pattern set. -/
def scenarioBPats : List (String × RE) := [("Rainfall", rainfallRE), ("Temperature", temperatureRE)]

/-- The scenario-B table after extraction. -/
def scenarioBExtracted : Table :=
  [("Message", [.str (enc "Rainfall: 9mm, Temperature: 22C")]),
   ("Rainfall", [.num ((9 : Int), 1)]),
   ("Temperature", [.num ((22 : Int), 1)])]

/-- Witness for C7 at the scenario-B pipeline, with an aggregation stub
that raises. -/
theorem weather_process_error_policy_witness :
    weatherProcess (.error ()) scenarioBPats (fun _ => .error ()) = .error () ∧
      ∃ m,
        weatherProcess (.ok scenarioBTable) scenarioBPats (fun _ => .error ()) =
          .ok (scenarioBExtracted, m) :=
  ⟨(weather_process_error_policy scenarioBPats (fun _ => .error ())).1,
    (weather_process_error_policy scenarioBPats (fun _ => .error ())).2.2.1
      scenarioBTable scenarioBExtracted (by decide)⟩

/-- Claim C10: when ingestion and extraction succeed, `process()` returns
the extracted table itself — the per-station means go to the separate
`weather_df_mean` slot — and the returned table does not depend on the
aggregation outcome (`calculate_means` is total in the model because the
source catches every exception it can raise). -/
theorem weather_process_returns_extracted (pats : List (String × RE)) (t t' : Table)
    (h : process_messages pats t = .ok t') :
    weatherProcessRun (.ok t) pats = .ok (t', calculate_means (List.map Prod.fst pats) t') ∧
      ∀ agg₁ agg₂ : Table → Except Unit (Option Table),
        (weatherProcess (.ok t) pats agg₁).map Prod.fst =
          (weatherProcess (.ok t) pats agg₂).map Prod.fst := by
  constructor
  · simp [weatherProcessRun, weatherProcess, h]
  · intro agg₁ agg₂
    simp [weatherProcess, h, Except.map]

/-- Witness for C10 at the scenario-B pipeline. -/
theorem weather_process_returns_extracted_witness :
    weatherProcessRun (.ok scenarioBTable) scenarioBPats =
        .ok (scenarioBExtracted,
          calculate_means (List.map Prod.fst scenarioBPats) scenarioBExtracted) ∧
      ∀ agg₁ agg₂ : Table → Except Unit (Option Table),
        (weatherProcess (.ok scenarioBTable) scenarioBPats agg₁).map Prod.fst =
          (weatherProcess (.ok scenarioBTable) scenarioBPats agg₂).map Prod.fst :=
  weather_process_returns_extracted scenarioBPats scenarioBTable scenarioBExtracted (by decide)

/-!
## Aggregation semantics (C3)
-/

/-- The numeric values of a list of cells, in order. -/
def numsOf (vs : List Val) : List Frac :=
  vs.filterMap (fun v =>
    match v with
    | Val.num q => some q
    | _ => none)

/-- The numeric measurement values of the group keyed by `k`. -/
def groupNums (svals mvals : List Val) (k : Val) : List Frac :=
  numsOf (groupVals svals mvals k)

theorem foldl_scStep_eq (vs : List Val) :
    ∀ acc : Frac × Nat,
      vs.foldl scStep acc = ((numsOf vs).foldl fadd acc.1, acc.2 + (numsOf vs).length) := by
  induction vs with
  | nil => intro acc; simp [numsOf]
  | cons v t ih =>
    intro acc
    cases v with
    | num q =>
      simp only [List.foldl_cons, numsOf, List.filterMap_cons, scStep]
      rw [ih]
      simp only [List.foldl_cons, List.length_cons, numsOf, Prod.mk.injEq]
      exact ⟨by trivial, by omega⟩
    | str s =>
      simp only [List.foldl_cons, numsOf, List.filterMap_cons, scStep]
      exact ih acc
    | null =>
      simp only [List.foldl_cons, numsOf, List.filterMap_cons, scStep]
      exact ih acc

theorem sumCount_eq (vs : List Val) :
    sumCount vs = ((numsOf vs).foldl fadd (fofInt 0), (numsOf vs).length) := by
  unfold sumCount
  rw [foldl_scStep_eq]
  simp

theorem toRat_fofInt0 : toRat (fofInt 0) = 0 := by
  norm_num [toRat, fofInt]

theorem fadd_den_pos {a b : Frac} (ha : 0 < a.2) (hb : 0 < b.2) : 0 < (fadd a b).2 :=
  Nat.mul_pos ha hb

theorem toRat_fadd {a b : Frac} (ha : 0 < a.2) (hb : 0 < b.2) :
    toRat (fadd a b) = toRat a + toRat b := by
  unfold toRat fadd
  have ha' : (a.2 : Rat) ≠ 0 := by exact_mod_cast ha.ne'
  have hb' : (b.2 : Rat) ≠ 0 := by exact_mod_cast hb.ne'
  push_cast
  field_simp

theorem foldl_fadd_spec (l : List Frac) :
    ∀ acc : Frac, 0 < acc.2 → (∀ p ∈ l, 0 < p.2) →
      0 < (l.foldl fadd acc).2 ∧
        toRat (l.foldl fadd acc) = toRat acc + (l.map toRat).sum := by
  induction l with
  | nil =>
    intro acc hacc _
    simp [hacc]
  | cons q t ih =>
    intro acc hacc hl
    have hq : 0 < q.2 := hl q (List.mem_cons_self q t)
    have ht : ∀ p ∈ t, 0 < p.2 := fun p hp => hl p (List.mem_cons_of_mem q hp)
    have hstep : 0 < (fadd acc q).2 := fadd_den_pos hacc hq
    obtain ⟨hpos, hsum⟩ := ih (fadd acc q) hstep ht
    refine ⟨by simpa using hpos, ?_⟩
    simp only [List.foldl_cons, List.map_cons, List.sum_cons]
    rw [hsum, toRat_fadd hacc hq]
    ring

theorem toRat_fdivNat {a : Frac} {n : Nat} (ha : 0 < a.2) (hn : 0 < n) :
    toRat (fdivNat a n) = toRat a / (n : Rat) := by
  unfold toRat fdivNat
  have ha' : (a.2 : Rat) ≠ 0 := by exact_mod_cast ha.ne'
  have hn' : (n : Rat) ≠ 0 := by exact_mod_cast hn.ne'
  push_cast
  field_simp

/-- Claim C3: aggregation (i) selects as measurement columns exactly the
pattern names that are present as columns and contain at least one
non-null value, (ii) on success produces the table whose first column is
the station key column and whose remaining columns are exactly the
selected measurements (so an all-null measurement column is excluded from
the output entirely), and (iii) each output cell is the arithmetic mean of
the non-null values of that measurement in that group — null, not zero,
when the group has no non-null value (denominator positivity of the cell
values is an invariant of extraction-produced tables, taken as a
hypothesis). -/
theorem calculate_means_spec (pats : List String) (t : Table) :
    (∀ m, m ∈ measurementColumns pats t ↔
        m ∈ pats ∧ ∃ col, getCol t m = some col ∧ ∃ v ∈ col, isNotNull v = true) ∧
      (∀ T', calculate_means pats t = some T' →
        ∃ sc svals,
          stationColumn t = some sc ∧ sc ≠ "" ∧ getCol t sc = some svals ∧
            T' =
              List.cons (sc, groupKeys svals)
                (List.map
                  (fun m =>
                    (m, (groupKeys svals).map
                      (fun k => cellMean svals ((getCol t m).getD []) k)))
                  (measurementColumns pats t)) ∧
            colNames T' = sc :: measurementColumns pats t) ∧
      ∀ svals mvals : List Val, ∀ k : Val,
        (∀ q ∈ groupNums svals mvals k, 0 < q.2) →
          sval (cellMean svals mvals k) =
            if groupNums svals mvals k = [] then SVal.null
            else
              SVal.num
                (((groupNums svals mvals k).map toRat).sum /
                  ((groupNums svals mvals k).length : Rat)) := by
  refine ⟨?_, ?_, ?_⟩
  · intro m
    unfold measurementColumns
    rw [List.mem_filter]
    constructor
    · rintro ⟨hm, hcond⟩
      refine ⟨hm, ?_⟩
      cases hg : getCol t m with
      | none => rw [hg] at hcond; exact absurd hcond (by simp)
      | some col =>
        rw [hg] at hcond
        exact ⟨col, rfl, List.any_eq_true.mp hcond⟩
    · rintro ⟨hm, col, hg, v, hv, hnn⟩
      refine ⟨hm, ?_⟩
      rw [hg]
      exact List.any_eq_true.mpr ⟨v, hv, hnn⟩
  · intro T' hT
    simp only [calculate_means] at hT
    by_cases h1 : measurementColumns pats t = []
    · rw [if_pos h1] at hT
      exact absurd hT (by simp)
    · rw [if_neg h1] at hT
      cases hst : stationColumn t with
      | none => rw [hst] at hT; exact absurd hT (by simp)
      | some sc =>
        rw [hst] at hT
        by_cases h2 : sc = ""
        · simp [h2] at hT
        · cases hg : getCol t sc with
          | none => simp [h2, hg] at hT
          | some svals =>
            simp only [h2, hg, if_neg, if_false, Option.some.injEq] at hT
            refine ⟨sc, svals, rfl, h2, hg, hT.symm, ?_⟩
            rw [← hT]
            simp only [colNames, List.map_cons, List.map_map]
            congr 1
            conv_rhs => rw [← List.map_id (measurementColumns pats t)]
            apply List.map_congr_left
            intro m _
            rfl
  · intro svals mvals k hpos
    have hnums : groupNums svals mvals k = numsOf (groupVals svals mvals k) := rfl
    unfold cellMean
    rw [sumCount_eq]
    by_cases h : groupNums svals mvals k = []
    · rw [if_pos h]
      rw [hnums] at h
      simp [h, sval]
    · rw [if_neg h]
      rw [hnums] at h hpos
      have hlen : (numsOf (groupVals svals mvals k)).length ≠ 0 := by
        simpa [List.length_eq_zero] using h
      rw [if_neg hlen]
      obtain ⟨hpos', hsum⟩ :=
        foldl_fadd_spec (numsOf (groupVals svals mvals k)) (fofInt 0) (by norm_num [fofInt]) hpos
      simp only [sval, SVal.num.injEq]
      rw [toRat_fdivNat hpos' (Nat.pos_of_ne_zero hlen), hsum, toRat_fofInt0, zero_add]
      rfl

/-- Witness for C3 at the example weather table: the aggregate keeps
`Rainfall`, drops the all-null `Pollution_level`, and the group
`[10.0, null, 20.0]` has mean `15.0`. -/
theorem calculate_means_spec_witness :
    (∃ sc svals,
        stationColumn meansExampleTable = some sc ∧ sc ≠ "" ∧
          getCol meansExampleTable sc = some svals ∧
            ([("Weather_station", [Val.str (enc "A")]),
              ("Rainfall", [Val.num ((30 : Int), 2)])] : Table) =
              List.cons (sc, groupKeys svals)
                (List.map
                  (fun m =>
                    (m, (groupKeys svals).map
                      (fun k => cellMean svals ((getCol meansExampleTable m).getD []) k)))
                  (measurementColumns ["Rainfall", "Pollution_level"] meansExampleTable)) ∧
            colNames
                [("Weather_station", [Val.str (enc "A")]),
                 ("Rainfall", [Val.num ((30 : Int), 2)])] =
              sc :: measurementColumns ["Rainfall", "Pollution_level"] meansExampleTable) ∧
      sval
          (cellMean [Val.str (enc "A"), Val.str (enc "A"), Val.str (enc "A")]
            [Val.num ((10 : Int), 1), Val.null, Val.num ((20 : Int), 1)]
            (Val.str (enc "A"))) =
        SVal.num 15 := by
  constructor
  · exact
      (calculate_means_spec ["Rainfall", "Pollution_level"] meansExampleTable).2.1
        [("Weather_station", [Val.str (enc "A")]), ("Rainfall", [Val.num ((30 : Int), 2)])]
        (by decide)
  · have h2 :=
      (calculate_means_spec ["Rainfall", "Pollution_level"] meansExampleTable).2.2
        [Val.str (enc "A"), Val.str (enc "A"), Val.str (enc "A")]
        [Val.num ((10 : Int), 1), Val.null, Val.num ((20 : Int), 1)]
        (Val.str (enc "A")) (by decide)
    have hn :
        groupNums [Val.str (enc "A"), Val.str (enc "A"), Val.str (enc "A")]
            [Val.num ((10 : Int), 1), Val.null, Val.num ((20 : Int), 1)]
            (Val.str (enc "A")) =
          [((10 : Int), 1), ((20 : Int), 1)] := by decide
    rw [hn] at h2
    norm_num [toRat] at h2
    exact h2
